import Mathlib

/-!
Verification development for the 3D-SDR geolocation and drone-swarm repository.

The definitions below are a shallow embedding of the Python source:

* `sdr_geolocation_lib/models/receivers.py` (`SDRReceiver`)
* `sdr_geolocation_lib/models/measurements.py` (`SignalMeasurement`)
* `sdr_geolocation_lib/algorithms/geolocation.py` (`SDRGeolocation`)
* `sdr_geolocation_lib/algorithms/tdoa.py` (`calculate_tdoa`, `geolocate_tdoa`)
* `sdr_geolocation_lib/algorithms/rssi.py` (`geolocate_rssi`)
* `drone-swarm-controller.py` (leader election, role priorities, collision
  avoidance, frequency band assignment)

Python floats are modelled as `ℚ` where the code only moves values around and
compares them, and as `ℝ` where the code applies transcendental functions
(trigonometry, square roots, powers).  Python dictionaries (insertion ordered,
last write wins per key) are modelled as association lists with an explicit
`dictInsert`.  Fallible code (Python exceptions such as `KeyError` and
`ZeroDivisionError`) is modelled in the `Except String` monad.  The scipy
`minimize` call is an external collaborator; it is modelled as an explicit
`Optimizer` parameter that receives exactly the objective function and the
initial guess the code builds.
-/

/-! ### Python dict model

A Python `dict` keeps insertion order; writing to an existing key updates the
value in place, writing a fresh key appends it.  `next(iter(d.keys()))` is the
head of the key list. -/

/-- Python `k in d`. -/
def dictContains {α : Type} (l : List (String × α)) (k : String) : Bool :=
  l.any (fun p => decide (p.1 = k))

/-- Python `d.get(k)` / `d[k]`: the value at the first (hence unique in a
real dict) occurrence of the key. -/
def dictGet? {α : Type} : List (String × α) → String → Option α
  | [], _ => none
  | p :: t, k => if p.1 = k then some p.2 else dictGet? t k

/-- Insertion-ordered dict write: update in place if the key is present,
otherwise append the new binding. -/
def dictInsert {α : Type} (l : List (String × α)) (k : String) (v : α) :
    List (String × α) :=
  if dictContains l k then
    l.map (fun p => if p.1 = k then (k, v) else p)
  else
    l ++ [(k, v)]

theorem dictGet?_eq_none_of_not_contains {α : Type} (l : List (String × α))
    (k : String) (hmem : dictContains l k = false) :
    dictGet? l k = none := by
  induction l with
  | nil => rfl
  | cons p t ih =>
    simp only [dictContains, List.any_cons, Bool.or_eq_false_iff,
      decide_eq_false_iff_not] at hmem
    simp only [dictGet?, if_neg hmem.1]
    exact ih (by simpa [dictContains] using hmem.2)

theorem dictGet?_append_single {α : Type} (l : List (String × α))
    (k a : String) (v : α) :
    dictGet? (l ++ [(k, v)]) a =
      match dictGet? l a with
      | some w => some w
      | none => if k = a then some v else none := by
  induction l with
  | nil => simp [dictGet?]
  | cons p t ih =>
    by_cases hap : p.1 = a
    · simp [dictGet?, hap]
    · simp only [List.cons_append, dictGet?, if_neg hap]
      exact ih

theorem dictGet?_update_self {α : Type} (l : List (String × α)) (k : String)
    (v : α) (hmem : dictContains l k = true) :
    dictGet? (l.map (fun p => if p.1 = k then (k, v) else p)) k = some v := by
  induction l with
  | nil => simp [dictContains] at hmem
  | cons p t ih =>
    by_cases hpk : p.1 = k
    · simp [dictGet?, hpk]
    · have hmem2 : dictContains t k = true := by
        simpa [dictContains, List.any_cons, hpk] using hmem
      simp only [List.map_cons, if_neg hpk, dictGet?]
      exact ih hmem2

theorem dictGet?_update_ne {α : Type} (l : List (String × α)) (k a : String)
    (v : α) (hak : a ≠ k) :
    dictGet? (l.map (fun p => if p.1 = k then (k, v) else p)) a =
      dictGet? l a := by
  induction l with
  | nil => rfl
  | cons p t ih =>
    by_cases hpk : p.1 = k
    · have hka : ¬ k = a := fun h => hak h.symm
      simp only [List.map_cons, if_pos hpk, dictGet?, if_neg hka,
        if_neg (show ¬ p.1 = a from by rw [hpk]; exact hka)]
      exact ih
    · simp only [List.map_cons, if_neg hpk, dictGet?]
      by_cases hpa : p.1 = a
      · simp [hpa]
      · rw [if_neg hpa, if_neg hpa]
        exact ih

theorem dictGet?_dictInsert {α : Type} (l : List (String × α)) (k a : String)
    (v : α) :
    dictGet? (dictInsert l k v) a =
      if k = a then some v else dictGet? l a := by
  by_cases hmem : dictContains l k
  · by_cases hak : a = k
    · subst hak
      simp [dictInsert, hmem, dictGet?_update_self l a v hmem]
    · have hka : ¬ k = a := fun h => hak h.symm
      simp [dictInsert, hmem, dictGet?_update_ne l k a v hak, hka]
  · have hmem2 : dictContains l k = false := by simpa using hmem
    by_cases hak : a = k
    · subst hak
      simp [dictInsert, hmem2, dictGet?_append_single,
        dictGet?_eq_none_of_not_contains l a hmem2]
    · have hka : ¬ k = a := fun h => hak h.symm
      simp only [dictInsert, hmem2, Bool.false_eq_true, if_false,
        dictGet?_append_single]
      cases h : dictGet? l a <;> simp [hka]

theorem length_dictInsert {α : Type} (l : List (String × α)) (k : String)
    (v : α) :
    (dictInsert l k v).length = l.length ∨
      (dictInsert l k v).length = l.length + 1 := by
  by_cases h : dictContains l k <;> simp [dictInsert, h]

/-! ### `SDRReceiver` (`models/receivers.py`) -/

/-- `SDRReceiver` dataclass: id, latitude, longitude, altitude, timestamp,
active. -/
structure SDRReceiver where
  id : String
  latitude : ℚ
  longitude : ℚ
  altitude : ℚ := 0
  timestamp : ℚ := 0
  active : Bool := true
deriving DecidableEq, Repr

/-- The dictionary produced by `SDRReceiver.to_dict`.  The fields read back
with `.get(..., default)` in `from_dict` are optional. -/
structure ReceiverDict where
  id : String
  latitude : ℚ
  longitude : ℚ
  altitude : Option ℚ
  timestamp : Option ℚ
  active : Option Bool
deriving DecidableEq, Repr

/-- `SDRReceiver.to_dict`: every field is emitted. -/
def SDRReceiver.to_dict (r : SDRReceiver) : ReceiverDict :=
  { id := r.id
    latitude := r.latitude
    longitude := r.longitude
    altitude := some r.altitude
    timestamp := some r.timestamp
    active := some r.active }

/-- `SDRReceiver.from_dict`: required `id`/`latitude`/`longitude`, defaults
`altitude=0.0`, `timestamp=0.0`, `active=True`. -/
def SDRReceiver.from_dict (d : ReceiverDict) : SDRReceiver :=
  { id := d.id
    latitude := d.latitude
    longitude := d.longitude
    altitude := d.altitude.getD 0
    timestamp := d.timestamp.getD 0
    active := d.active.getD true }

/-! ### `SignalMeasurement` (`models/measurements.py`) -/

/-- `SignalMeasurement` dataclass. -/
structure SignalMeasurement where
  receiver_id : String
  frequency : ℚ
  power : ℚ
  timestamp : ℚ
  tdoa : Option ℚ := none
  snr : Option ℚ := none
  modulation : Option String := none
deriving DecidableEq, Repr

/-! ### `SDRGeolocation` registry state (`algorithms/geolocation.py`) -/

/-- The mutable state of the `SDRGeolocation` engine: the receiver dict
(insertion ordered, keyed by receiver id) and the optional reference
receiver id. -/
structure SDRGeolocation where
  receivers : List (String × SDRReceiver)
  reference_receiver : Option String
deriving DecidableEq, Repr

/-- `SDRGeolocation.__init__`: empty registry, no reference. -/
def geoInit : SDRGeolocation :=
  { receivers := [], reference_receiver := none }

/-- `SDRGeolocation.add_receiver`: write `receivers[receiver.id] = receiver`;
if the dict then has exactly one entry, that receiver becomes the
reference. -/
def SDRGeolocation.add_receiver (st : SDRGeolocation) (r : SDRReceiver) :
    SDRGeolocation :=
  if (dictInsert st.receivers r.id r).length = 1 then
    { receivers := dictInsert st.receivers r.id r,
      reference_receiver := some r.id }
  else
    { receivers := dictInsert st.receivers r.id r,
      reference_receiver := st.reference_receiver }

/-- `SDRGeolocation.remove_receiver`: delete the key if present; if the
removed receiver was the reference and the dict is still nonempty, the
reference becomes the first remaining key (`next(iter(...))`).  When the dict
empties, the reference is left as it was. -/
def SDRGeolocation.remove_receiver (st : SDRGeolocation) (rid : String) :
    SDRGeolocation :=
  if dictContains st.receivers rid then
    if st.reference_receiver = some rid ∧
        st.receivers.filter (fun p => decide (¬ p.1 = rid)) ≠ [] then
      { receivers := st.receivers.filter (fun p => decide (¬ p.1 = rid)),
        reference_receiver :=
          ((st.receivers.filter
            (fun p => decide (¬ p.1 = rid))).map (fun p => p.1)).head? }
    else
      { receivers := st.receivers.filter (fun p => decide (¬ p.1 = rid)),
        reference_receiver := st.reference_receiver }
  else
    st

/-- `SDRGeolocation.set_reference_receiver`: set only if the id is a key of
the dict; report success. -/
def SDRGeolocation.set_reference_receiver (st : SDRGeolocation)
    (rid : String) : SDRGeolocation × Bool :=
  if dictContains st.receivers rid then
    ({ st with reference_receiver := some rid }, true)
  else
    (st, false)

/-- `SDRGeolocation.get_active_receivers`. -/
def SDRGeolocation.get_active_receivers (st : SDRGeolocation) :
    List SDRReceiver :=
  (st.receivers.map (fun p => p.2)).filter (fun r => r.active)

/-- One registry operation, for stating invariants over arbitrary call
sequences. -/
inductive RegOp where
  | add (r : SDRReceiver)
  | remove (rid : String)
  | setRef (rid : String)
deriving Repr

/-- Apply one registry operation. -/
def applyRegOp (st : SDRGeolocation) : RegOp → SDRGeolocation
  | RegOp.add r => st.add_receiver r
  | RegOp.remove rid => st.remove_receiver rid
  | RegOp.setRef rid => (st.set_reference_receiver rid).1

/-- Run a sequence of registry operations from the freshly initialized
engine. -/
def runRegOps (ops : List RegOp) : SDRGeolocation :=
  ops.foldl applyRegOp geoInit

/-! ### Registry serialization (`SDRGeolocation.to_dict` / `from_dict`) -/

/-- The dictionary produced by `SDRGeolocation.to_dict`. -/
structure GeoDict where
  receivers : List (String × ReceiverDict)
  reference_receiver : Option String
deriving DecidableEq, Repr

/-- `SDRGeolocation.to_dict`: serialize every receiver (iterating the dict in
insertion order) and the reference id. -/
def SDRGeolocation.to_dict (st : SDRGeolocation) : GeoDict :=
  { receivers := st.receivers.map (fun p => (p.1, p.2.to_dict))
    reference_receiver := st.reference_receiver }

/-- `SDRGeolocation.from_dict`: start from a fresh engine, `add_receiver`
each deserialized receiver in order, then overwrite the reference id with the
serialized one. -/
def SDRGeolocation.from_dict (d : GeoDict) : SDRGeolocation :=
  let g := d.receivers.foldl
    (fun g p => g.add_receiver (SDRReceiver.from_dict p.2)) geoInit
  { g with reference_receiver := d.reference_receiver }

/-! ### `calculate_tdoa` (`algorithms/tdoa.py`) -/

/-- `calculate_tdoa(signal_measurements, reference_receiver_id)`:

1. group measurements into a dict keyed by receiver id (last write wins);
2. if the reference id has no entry, return the list unchanged;
3. otherwise set `tdoa = timestamp - reference_time` on every measurement
   whose receiver id differs from the reference. -/
def calculate_tdoa (signal_measurements : List SignalMeasurement)
    (reference_receiver_id : String) : List SignalMeasurement :=
  let measurements_by_receiver := signal_measurements.foldl
    (fun d m => dictInsert d m.receiver_id m) []
  match dictGet? measurements_by_receiver reference_receiver_id with
  | none => signal_measurements
  | some refMeasurement =>
    signal_measurements.map (fun m =>
      if m.receiver_id ≠ reference_receiver_id then
        { m with tdoa := some (m.timestamp - refMeasurement.timestamp) }
      else m)

/-- The measurement the receiver-keyed dict retains for a given receiver id:
the last one in list order (dict writes are last-wins). -/
def lastMeasurementOf (ms : List SignalMeasurement) (rid : String) :
    Option SignalMeasurement :=
  ms.reverse.find? (fun m => decide (m.receiver_id = rid))

/-! ### Great-circle geometry (floats modelled as `ℝ`) -/

/-- Python `math.atan2(y, x)`. -/
noncomputable def atan2 (y x : ℝ) : ℝ :=
  if 0 < x then Real.arctan (y / x)
  else if x < 0 then
    (if 0 ≤ y then Real.arctan (y / x) + Real.pi
     else Real.arctan (y / x) - Real.pi)
  else
    (if 0 < y then Real.pi / 2 else if y < 0 then -(Real.pi / 2) else 0)

/-- Python `math.radians`. -/
noncomputable def radians (d : ℝ) : ℝ := d * Real.pi / 180

/-- Python `math.degrees`. -/
noncomputable def degrees (r : ℝ) : ℝ := r * 180 / Real.pi

/-- `SDRGeolocation._get_point_at_distance(lat, lon, distance, bearing)`:
standard great-circle forward problem on a sphere of radius 6371000 m,
taking start coordinates in degrees, distance in meters and bearing in
radians, returning `(latitude, longitude)` in degrees. -/
noncomputable def get_point_at_distance (lat lon : ℚ) (distance bearing : ℝ) :
    ℝ × ℝ :=
  let lat_rad := radians (lat : ℝ)
  let lon_rad := radians (lon : ℝ)
  let R : ℝ := 6371000
  let lat2_rad := Real.arcsin
    (Real.sin lat_rad * Real.cos (distance / R) +
      Real.cos lat_rad * Real.sin (distance / R) * Real.cos bearing)
  let lon2_rad := lon_rad + atan2
    (Real.sin bearing * Real.sin (distance / R) * Real.cos lat_rad)
    (Real.cos (distance / R) - Real.sin lat_rad * Real.sin lat2_rad)
  (degrees lat2_rad, degrees lon2_rad)

/-- Surface distance in meters from the `haversine` library
(`haversine(p1, p2, unit=Unit.METERS)`), on a sphere with the library's mean
earth radius 6371.0088 km. -/
noncomputable def haversineMeters (lat1 lon1 lat2 lon2 : ℝ) : ℝ :=
  let R : ℝ := 6371008.8
  let φ1 := radians lat1
  let φ2 := radians lat2
  let h :=
    Real.sin ((φ2 - φ1) / 2) ^ 2 +
      Real.cos φ1 * Real.cos φ2 * Real.sin ((radians lon2 - radians lon1) / 2) ^ 2
  2 * R * Real.arcsin (Real.sqrt h)

/-- `calculate_distance` (`tdoa.py`): haversine surface distance combined
with the altitude difference by the Pythagorean theorem. -/
noncomputable def calculate_distance (coords1 coords2 : ℝ × ℝ × ℝ) : ℝ :=
  let surface_distance :=
    haversineMeters coords1.1 coords1.2.1 coords2.1 coords2.2.1
  let altitude_diff := coords2.2.2 - coords1.2.2
  Real.sqrt (surface_distance ^ 2 + altitude_diff ^ 2)

/-! ### `SDRGeolocation.estimate_single_receiver` -/

/-- One entry of the probability circle returned by
`estimate_single_receiver`. -/
structure CirclePoint where
  latitude : ℝ
  longitude : ℝ
  probability : ℚ

/-- `SDRGeolocation.estimate_single_receiver(measurement,
estimated_transmit_power)`: empty if the measurement's receiver is unknown;
otherwise 36 points on a circle around the receiver at distance
`sqrt(estimated_transmit_power / max(power, 0.001)) * 1000`, at angles
`2*pi*i/36`, each with probability `1/36`. -/
noncomputable def SDRGeolocation.estimate_single_receiver
    (st : SDRGeolocation) (measurement : SignalMeasurement)
    (estimated_transmit_power : ℚ := 1) : List CirclePoint :=
  match dictGet? st.receivers measurement.receiver_id with
  | none => []
  | some receiver =>
    let power : ℚ := max measurement.power (1 / 1000)
    let estimated_distance : ℝ :=
      Real.sqrt ((estimated_transmit_power : ℝ) / (power : ℝ)) * 1000
    let num_points : ℕ := 36
    (List.range num_points).map (fun (i : ℕ) =>
      let angle : ℝ := (2 * Real.pi * (i : ℝ)) / (num_points : ℝ)
      let p := get_point_at_distance receiver.latitude receiver.longitude
        estimated_distance angle
      { latitude := p.1, longitude := p.2,
        probability := 1 / (num_points : ℚ) })

/-! ### The scipy `minimize` collaborator -/

/-- The result object of `scipy.optimize.minimize`: a success flag and the
final point. -/
structure OptimizeResult where
  success : Bool
  x : ℝ × ℝ × ℝ

/-- An objective function handed to the optimizer.  Evaluation can raise
(Python `KeyError` / `ZeroDivisionError`), hence `Except`. -/
def Objective : Type := (ℝ × ℝ × ℝ) → Except String ℝ

/-- The optimizer itself (`minimize(error_function, initial_guess,
method=Powell)`): an arbitrary external procedure receiving the objective and
the initial guess.  It may propagate exceptions from the objective. -/
def Optimizer : Type := Objective → (ℝ × ℝ × ℝ) → Except String OptimizeResult

/-- `SPEED_OF_LIGHT` (class attribute of `SDRGeolocation`, also a constant of
`drone-swarm-controller.py`). -/
def SPEED_OF_LIGHT : ℚ := 299792458

/-! ### `geolocate_tdoa` (`algorithms/tdoa.py`) -/

/-- The coordinates of a receiver as a float triple. -/
def receiverCoords (r : SDRReceiver) : ℝ × ℝ × ℝ :=
  ((r.latitude : ℝ), (r.longitude : ℝ), (r.altitude : ℝ))

open Classical in
/-- `error_function` inside `geolocate_tdoa`: sum of squared differences
between expected and measured TDoA over the receiver-keyed measurement dict,
skipping the reference entry.  Dict lookups on `receivers` can raise
`KeyError` (in particular when `reference_receiver_id` is `None`), and the
division by `speed_of_light` can raise `ZeroDivisionError`. -/
noncomputable def tdoaErrorFunction
    (measurements_by_receiver : List (String × SignalMeasurement))
    (receivers : List (String × SDRReceiver))
    (reference_receiver_id : Option String)
    (speed_of_light : ℝ) : Objective := fun coords =>
  match reference_receiver_id.bind (dictGet? receivers) with
  | none => Except.error "KeyError"
  | some ref_receiver =>
    let ref_distance := calculate_distance (receiverCoords ref_receiver) coords
    measurements_by_receiver.foldlM (fun error_sum p =>
      if reference_receiver_id = some p.1 then Except.ok error_sum
      else
        match dictGet? receivers p.1 with
        | none => Except.error "KeyError"
        | some receiver =>
          let distance := calculate_distance (receiverCoords receiver) coords
          if speed_of_light = 0 then Except.error "ZeroDivisionError"
          else
            let expected_tdoa := (distance - ref_distance) / speed_of_light
            Except.ok (error_sum +
              (expected_tdoa - ((p.2.tdoa.getD 0 : ℚ) : ℝ)) ^ 2)) 0

/-- The receiver-keyed dict of measurements carrying a `tdoa` value
(`measurements_by_receiver` in `geolocate_tdoa`). -/
def tdoaMeasurementsByReceiver (signal_measurements : List SignalMeasurement) :
    List (String × SignalMeasurement) :=
  (signal_measurements.filter (fun m => m.tdoa.isSome)).foldl
    (fun d m => dictInsert d m.receiver_id m) []

/-- The initial guess of `geolocate_tdoa`: the mean position of the active
receivers (a float division that raises `ZeroDivisionError` when there is no
active receiver). -/
noncomputable def tdoaInitialGuess (active_receivers : List SDRReceiver) :
    ℝ × ℝ × ℝ :=
  let n : ℝ := (active_receivers.length : ℝ)
  ((active_receivers.map (fun r => (r.latitude : ℝ))).sum / n,
   (active_receivers.map (fun r => (r.longitude : ℝ))).sum / n,
   (active_receivers.map (fun r => (r.altitude : ℝ))).sum / n)

/-- `geolocate_tdoa(signal_measurements, receivers, reference_receiver_id,
speed_of_light)` with the scipy call abstracted as `opt`:

1. keep only measurements with a computed `tdoa`, keyed by receiver;
2. fewer than 3 such receivers: `None` (insufficient data);
3. otherwise minimize the TDoA error function starting from the mean of the
   active receivers and return the solution on success, `None` on
   non-convergence. -/
noncomputable def geolocate_tdoa (opt : Optimizer)
    (signal_measurements : List SignalMeasurement)
    (receivers : List (String × SDRReceiver))
    (reference_receiver_id : Option String)
    (speed_of_light : ℚ) : Except String (Option (ℝ × ℝ × ℝ)) :=
  let measurements_by_receiver := tdoaMeasurementsByReceiver signal_measurements
  if measurements_by_receiver.length < 3 then Except.ok none
  else
    let active_receivers :=
      (receivers.map (fun p => p.2)).filter (fun r => r.active)
    if active_receivers.length = 0 then Except.error "ZeroDivisionError"
    else
      match opt (tdoaErrorFunction measurements_by_receiver receivers
          reference_receiver_id (speed_of_light : ℝ))
          (tdoaInitialGuess active_receivers) with
      | Except.error e => Except.error e
      | Except.ok result =>
        if result.success then Except.ok (some result.x) else Except.ok none

/-- `SDRGeolocation.geolocate_tdoa` (`algorithms/geolocation.py`): return
`None` outright with fewer than 3 active receivers, otherwise delegate to the
module-level `geolocate_tdoa` with the engine's receiver dict, reference id
and `SPEED_OF_LIGHT`. -/
noncomputable def geolocateTdoaEngine (opt : Optimizer) (st : SDRGeolocation)
    (signal_measurements : List SignalMeasurement) :
    Except String (Option (ℝ × ℝ × ℝ)) :=
  if st.get_active_receivers.length < 3 then Except.ok none
  else
    geolocate_tdoa opt signal_measurements st.receivers
      st.reference_receiver SPEED_OF_LIGHT

/-! ### `geolocate_rssi` (`algorithms/rssi.py`) -/

open Classical in
/-- `error_function` inside `geolocate_rssi`: weighted sum of squared
differences between the inverse-square-law expected power and the measured
power, skipping measurements whose receiver is unknown.  The division
`1.0 / distance**2` raises `ZeroDivisionError` at distance 0. -/
noncomputable def rssiErrorFunction
    (signal_measurements : List SignalMeasurement)
    (receivers_dict : List (String × SDRReceiver)) : Objective := fun coords =>
  signal_measurements.foldlM (fun error_sum m =>
    match dictGet? receivers_dict m.receiver_id with
    | none => Except.ok error_sum
    | some receiver =>
      let distance := calculate_distance (receiverCoords receiver) coords
      if distance ^ 2 = 0 then Except.error "ZeroDivisionError"
      else
        let expected_power := 1 / distance ^ 2
        let max_expected : ℝ := 1
        let expected_power := expected_power / max_expected
        let weight : ℝ :=
          match m.snr with
          | some snr => (10 : ℝ) ^ (((snr : ℝ) / 10) : ℝ)
          | none => 1
        Except.ok (error_sum + weight * (expected_power - (m.power : ℝ)) ^ 2))
    0

/-- The initial-guess loop of `geolocate_rssi`: power-weighted average of the
receiver positions, skipping measurements whose receiver is unknown.  Each
kept measurement divides by `total_power`, raising `ZeroDivisionError` when
it is zero. -/
def rssiInitialGuess (signal_measurements : List SignalMeasurement)
    (receivers_dict : List (String × SDRReceiver)) (total_power : ℚ) :
    Except String (ℚ × ℚ × ℚ) :=
  signal_measurements.foldlM (fun avg m =>
    match dictGet? receivers_dict m.receiver_id with
    | none => Except.ok avg
    | some receiver =>
      if total_power = 0 then Except.error "ZeroDivisionError"
      else
        let weight := m.power / total_power
        Except.ok (avg.1 + receiver.latitude * weight,
          avg.2.1 + receiver.longitude * weight,
          avg.2.2 + receiver.altitude * weight))
    (0, 0, 0)

/-- `geolocate_rssi(signal_measurements, active_receivers)` with the scipy
call abstracted as `opt`:

1. fewer than 3 measurements: `None`;
2. zero total power: `None` (guarding the weighted-centroid divisions);
3. otherwise minimize the RSSI error function from the power-weighted
   centroid and return the solution on success, `None` on non-convergence. -/
noncomputable def geolocate_rssi (opt : Optimizer)
    (signal_measurements : List SignalMeasurement)
    (active_receivers : List SDRReceiver) :
    Except String (Option (ℝ × ℝ × ℝ)) :=
  if signal_measurements.length < 3 then Except.ok none
  else
    let receivers_dict :=
      active_receivers.foldl (fun d r => dictInsert d r.id r) []
    let total_power := (signal_measurements.map (fun m => m.power)).sum
    if total_power = 0 then Except.ok none
    else
      match rssiInitialGuess signal_measurements receivers_dict total_power with
      | Except.error e => Except.error e
      | Except.ok g =>
        match opt (rssiErrorFunction signal_measurements receivers_dict)
            ((g.1 : ℝ), (g.2.1 : ℝ), (g.2.2 : ℝ)) with
        | Except.error e => Except.error e
        | Except.ok result =>
          if result.success then Except.ok (some result.x) else Except.ok none

/-! ### Swarm constants (`drone-swarm-controller.py`) -/

/-- `MIN_SEPARATION_DISTANCE = 15` meters. -/
def MIN_SEPARATION_DISTANCE : ℚ := 15

/-- `SAFE_ALTITUDE_STEP = 10` meters. -/
def SAFE_ALTITUDE_STEP : ℚ := 10

/-- `PURSUIT_ROLES = [LEAD, TRIANGULATION, BACKUP, SCOUT]`. -/
def PURSUIT_ROLES : List String :=
  ["LEAD", "TRIANGULATION", "BACKUP", "SCOUT"]

/-- `FREQUENCY_BANDS`: the four scan bands, in Hz. -/
def FREQUENCY_BANDS : List (ℚ × ℚ) :=
  [(88000000, 108000000),
   (144000000, 148000000),
   (430000000, 440000000),
   (450000000, 470000000)]

/-! ### Collision avoidance (`DroneSwarmController.avoid_collisions`) -/

/-- The `role_priority` dict of `avoid_collisions`, read with
`.get(role, -1)`. -/
def role_priority (role : String) : Int :=
  if role = "LEAD" then 3
  else if role = "TRIANGULATION" then 2
  else if role = "BACKUP" then 1
  else if role = "SCOUT" then 0
  else if role = "UNASSIGNED" then -1
  else if role = "UNKNOWN" then -1
  else -1

/-- `we_should_adjust = our_priority <= closest_priority`: the decision that
this agent yields to the nearest conflicting peer. -/
def we_should_adjust (our_role closest_role : String) : Bool :=
  role_priority our_role ≤ role_priority closest_role

/-- The per-peer collision-risk record built by `detect_collision_risk`. -/
structure CollisionRisk where
  distance : ℚ
  position : ℚ × ℚ
  altitude : ℚ
deriving DecidableEq, Repr

/-- `DroneSwarmController.calculate_bearing(pos1, pos2)`: initial great-circle
bearing from `pos1` to `pos2`, in radians. -/
noncomputable def calculate_bearing (pos1 pos2 : ℚ × ℚ) : ℝ :=
  let lat1 := radians (pos1.1 : ℝ)
  let lon1 := radians (pos1.2 : ℝ)
  let lat2 := radians (pos2.1 : ℝ)
  let lon2 := radians (pos2.2 : ℝ)
  let y := Real.sin (lon2 - lon1) * Real.cos lat2
  let x := Real.cos lat1 * Real.sin lat2 -
    Real.sin lat1 * Real.cos lat2 * Real.cos (lon2 - lon1)
  atan2 y x

/-- `DroneSwarmController.calculate_position_at_bearing(lat, lon, bearing,
distance)`: great-circle forward problem on a sphere of radius 6371000 m. -/
noncomputable def calculate_position_at_bearing (lat lon : ℚ) (bearing : ℝ)
    (distance : ℚ) : ℝ × ℝ :=
  let R : ℝ := 6371000
  let lat_rad := radians (lat : ℝ)
  let lon_rad := radians (lon : ℝ)
  let d : ℝ := (distance : ℝ)
  let new_lat := Real.arcsin
    (Real.sin lat_rad * Real.cos (d / R) +
      Real.cos lat_rad * Real.sin (d / R) * Real.cos bearing)
  let new_lon := lon_rad + atan2
    (Real.sin bearing * Real.sin (d / R) * Real.cos lat_rad)
    (Real.cos (d / R) - Real.sin lat_rad * Real.sin new_lat)
  (degrees new_lat, degrees new_lon)

/-- The goto target chosen by the yielding branch of `avoid_collisions`:
either a lateral move (latitude/longitude from the great-circle step, current
altitude) or an altitude move (current latitude/longitude, adjusted
altitude). -/
inductive AvoidTarget where
  | lateral (latitude longitude : ℝ) (altitude : ℚ)
  | vertical (latitude longitude : ℚ) (altitude : ℚ)

/-- Whether the chosen target is the lateral-displacement maneuver. -/
def AvoidTarget.isLateral : AvoidTarget → Bool
  | AvoidTarget.lateral _ _ _ => true
  | AvoidTarget.vertical _ _ _ => false

/-- The maneuver choice of the yielding agent in `avoid_collisions` (lines
1119-1161): if the altitude difference to the closest conflicting drone
exceeds `SAFE_ALTITUDE_STEP * 0.8` move laterally, away from that drone along
the bearing from its position to ours, by `MIN_SEPARATION_DISTANCE`, keeping
the current altitude; otherwise step the altitude by `SAFE_ALTITUDE_STEP` up
when we are at or above the other drone and down otherwise, clamped to
[10, 120] m, keeping the current position. -/
noncomputable def avoidManeuver (current_lat current_lon current_alt : ℚ)
    (closest_drone : CollisionRisk) : AvoidTarget :=
  let alt_diff := |current_alt - closest_drone.altitude|
  if alt_diff > SAFE_ALTITUDE_STEP * (8 / 10) then
    let bearing := calculate_bearing closest_drone.position
      (current_lat, current_lon)
    let safe_position := calculate_position_at_bearing current_lat current_lon
      bearing MIN_SEPARATION_DISTANCE
    AvoidTarget.lateral safe_position.1 safe_position.2 current_alt
  else
    let safe_alt :=
      if current_alt ≥ closest_drone.altitude then
        current_alt + SAFE_ALTITUDE_STEP
      else
        current_alt - SAFE_ALTITUDE_STEP
    let safe_alt := max 10 (min 120 safe_alt)
    AvoidTarget.vertical current_lat current_lon safe_alt

/-! ### Leader election (`DroneSwarmController.elect_swarm_leader`) -/

/-- The per-candidate data the election reads: `d.get('rssi', -100)` and
`d.get('battery', 0)`. -/
structure DroneInfo where
  rssi : ℚ
  battery : ℚ
deriving DecidableEq, Repr

/-- The comparison realized by
`all_drones.sort(key=lambda d: (-rssi, -battery))`: Python sorts ascending
by the key tuple, i.e. descending lexicographically by `(rssi, battery)`. -/
def electionKeyLE (a b : String × DroneInfo) : Prop :=
  b.2.rssi < a.2.rssi ∨ (a.2.rssi = b.2.rssi ∧ b.2.battery ≤ a.2.battery)

instance electionKeyLE.decRel : DecidableRel electionKeyLE := fun a b => by
  unfold electionKeyLE
  infer_instance

instance electionKeyLE.isTotal : IsTotal (String × DroneInfo) electionKeyLE where
  total a b := by
    unfold electionKeyLE
    rcases lt_trichotomy a.2.rssi b.2.rssi with h | h | h
    · exact Or.inr (Or.inl h)
    · rcases le_total a.2.battery b.2.battery with hb | hb
      · exact Or.inr (Or.inr ⟨h.symm, hb⟩)
      · exact Or.inl (Or.inr ⟨h, hb⟩)
    · exact Or.inl (Or.inl h)

instance electionKeyLE.isTrans : IsTrans (String × DroneInfo) electionKeyLE where
  trans a b c hab hbc := by
    unfold electionKeyLE at hab hbc ⊢
    rcases hab with h1 | ⟨h1, h1b⟩
    · rcases hbc with h2 | ⟨h2, h2b⟩
      · exact Or.inl (h2.trans h1)
      · exact Or.inl (h2 ▸ h1)
    · rcases hbc with h2 | ⟨h2, h2b⟩
      · exact Or.inl (h1 ▸ h2)
      · exact Or.inr ⟨h1.trans h2, h2b.trans h1b⟩

/-- The candidate ranking: Python's stable ascending sort by
`(-rssi, -battery)`, modelled by the (stable) insertion sort with the
descending `(rssi, battery)` comparison. -/
def sortCandidates (all_drones : List (String × DroneInfo)) :
    List (String × DroneInfo) :=
  List.insertionSort electionKeyLE all_drones

/-- `leader_id = all_drones[0][0]` after sorting. -/
def electLeader (all_drones : List (String × DroneInfo)) : Option String :=
  (sortCandidates all_drones).head?.map (fun p => p.1)

/-- `PURSUIT_ROLES[min(i, len(PURSUIT_ROLES) - 1)]` — the role of rank `i`
in the ranking; the index is always in range, so the `getD` default is never
used. -/
def roleOfRank (i : ℕ) : String :=
  PURSUIT_ROLES.getD (min i (PURSUIT_ROLES.length - 1)) "SCOUT"

/-- The full rank-to-role assignment over the sorted candidate list (the
election loop assigns `PURSUIT_ROLES[min(i, 3)]` to the drone at sorted
position `i`). -/
def assignRoles (all_drones : List (String × DroneInfo)) :
    List (String × String) :=
  (sortCandidates all_drones).enum.map (fun p => (p.2.1, roleOfRank p.1))

/-! ### Frequency band allocation (`SwarmSDRManager.assign_frequency_bands`) -/

/-- `assign_frequency_bands`: sort the active drone ids (`list.sort()` on
strings, for a consistent assignment across the swarm) and give the drone at
sorted position `i` the band `FREQUENCY_BANDS[i % len(FREQUENCY_BANDS)]`
(the modulus keeps the index in range, so the `getD` default is never
used). -/
def assign_frequency_bands (active_drones : List String) :
    List (String × (ℚ × ℚ)) :=
  let sorted := List.insertionSort (fun a b : String => a ≤ b) active_drones
  sorted.enum.map (fun p =>
    (p.2, FREQUENCY_BANDS.getD (p.1 % FREQUENCY_BANDS.length) (0, 0)))

/-- Two frequency bands are disjoint as intervals. -/
def bandsDisjoint (a b : ℚ × ℚ) : Prop :=
  a.2 ≤ b.1 ∨ b.2 ≤ a.1

instance bandsDisjoint.dec (a b : ℚ × ℚ) : Decidable (bandsDisjoint a b) := by
  unfold bandsDisjoint
  infer_instance

/-! ### Registry invariant development -/

theorem dictContains_eq_isSome {α : Type} (l : List (String × α))
    (k : String) : dictContains l k = (dictGet? l k).isSome := by
  induction l with
  | nil => rfl
  | cons p t ih =>
    by_cases hpk : p.1 = k
    · simp [dictContains, dictGet?, hpk]
    · simp [dictContains, dictGet?, hpk, List.any_cons] at ih ⊢
      exact ih

/-- The reference, whenever the registry is nonempty, is set and names a
present receiver. -/
def RegInv (st : SDRGeolocation) : Prop :=
  st.receivers ≠ [] →
    ∃ r, st.reference_receiver = some r ∧
      dictContains st.receivers r = true

theorem dictContains_filter_ne {α : Type} (l : List (String × α))
    (k rid : String) (hk : dictContains l k = true) (hne : k ≠ rid) :
    dictContains (l.filter (fun p => decide (¬ p.1 = rid))) k = true := by
  simp only [dictContains, List.any_eq_true, decide_eq_true_eq] at hk ⊢
  obtain ⟨p, hp, hpk⟩ := hk
  exact ⟨p, List.mem_filter.mpr ⟨hp, by simpa [hpk] using hne⟩, hpk⟩

theorem regInv_add (st : SDRGeolocation) (r : SDRReceiver) (h : RegInv st) :
    RegInv (st.add_receiver r) := by
  unfold RegInv
  by_cases hlen : (dictInsert st.receivers r.id r).length = 1
  · have hstate : st.add_receiver r =
        { receivers := dictInsert st.receivers r.id r,
          reference_receiver := some r.id } := by
      unfold SDRGeolocation.add_receiver
      rw [if_pos hlen]
    rw [hstate]
    intro _
    refine ⟨r.id, rfl, ?_⟩
    rw [dictContains_eq_isSome, dictGet?_dictInsert]
    simp
  · have hstate : st.add_receiver r =
        { receivers := dictInsert st.receivers r.id r,
          reference_receiver := st.reference_receiver } := by
      unfold SDRGeolocation.add_receiver
      rw [if_neg hlen]
    rw [hstate]
    intro _
    have hne : st.receivers ≠ [] := by
      intro hnil
      apply hlen
      simp [hnil, dictInsert, dictContains]
    obtain ⟨rr, href, hcont⟩ := h hne
    refine ⟨rr, href, ?_⟩
    rw [dictContains_eq_isSome, dictGet?_dictInsert]
    by_cases hid : r.id = rr
    · simp [hid]
    · rw [if_neg hid, ← dictContains_eq_isSome]
      exact hcont

theorem regInv_remove (st : SDRGeolocation) (rid : String) (h : RegInv st) :
    RegInv (st.remove_receiver rid) := by
  unfold RegInv
  by_cases hmem : dictContains st.receivers rid
  · by_cases hcase : st.reference_receiver = some rid ∧
        st.receivers.filter (fun p => decide (¬ p.1 = rid)) ≠ []
    · have hstate : st.remove_receiver rid =
          { receivers := st.receivers.filter (fun p => decide (¬ p.1 = rid)),
            reference_receiver :=
              ((st.receivers.filter
                (fun p => decide (¬ p.1 = rid))).map (fun p => p.1)).head? } := by
        unfold SDRGeolocation.remove_receiver
        rw [if_pos hmem, if_pos hcase]
      rw [hstate]
      intro _
      obtain ⟨p, t, hpt⟩ :
          ∃ p t, st.receivers.filter (fun p => decide (¬ p.1 = rid)) = p :: t := by
        rcases hfil : st.receivers.filter (fun p => decide (¬ p.1 = rid)) with
          _ | ⟨p, t⟩
        · exact absurd hfil hcase.2
        · exact ⟨p, t, hfil⟩
      refine ⟨p.1, ?_, ?_⟩
      · rw [hpt]
        rfl
      · rw [hpt]
        simp [dictContains, List.any_cons]
    · have hstate : st.remove_receiver rid =
          { receivers := st.receivers.filter (fun p => decide (¬ p.1 = rid)),
            reference_receiver := st.reference_receiver } := by
        unfold SDRGeolocation.remove_receiver
        rw [if_pos hmem, if_neg hcase]
      rw [hstate]
      intro hne
      have hne2 : st.receivers ≠ [] := by
        intro hnil
        apply hne
        simp [hnil]
      obtain ⟨rr, href, hcont⟩ := h hne2
      have hrr : rr ≠ rid := by
        intro heq
        exact hcase ⟨heq ▸ href, hne⟩
      exact ⟨rr, href, dictContains_filter_ne st.receivers rr rid hcont hrr⟩
  · have hstate : st.remove_receiver rid = st := by
      unfold SDRGeolocation.remove_receiver
      rw [if_neg (by simpa using hmem)]
    rw [hstate]
    exact h

theorem regInv_setRef (st : SDRGeolocation) (rid : String) (h : RegInv st) :
    RegInv (st.set_reference_receiver rid).1 := by
  unfold RegInv SDRGeolocation.set_reference_receiver
  by_cases hmem : dictContains st.receivers rid
  · simp only [hmem, if_true]
    intro _
    exact ⟨rid, rfl, hmem⟩
  · simp only [hmem, Bool.false_eq_true, if_false]
    exact h

theorem regInv_applyRegOp (st : SDRGeolocation) (op : RegOp)
    (h : RegInv st) : RegInv (applyRegOp st op) := by
  cases op with
  | add r => exact regInv_add st r h
  | remove rid => exact regInv_remove st rid h
  | setRef rid => exact regInv_setRef st rid h

theorem regInv_foldl (ops : List RegOp) :
    ∀ st : SDRGeolocation, RegInv st → RegInv (ops.foldl applyRegOp st) := by
  induction ops with
  | nil => intro st h; exact h
  | cons op rest ih =>
    intro st h
    exact ih (applyRegOp st op) (regInv_applyRegOp st op h)

theorem regInv_runRegOps (ops : List RegOp) : RegInv (runRegOps ops) :=
  regInv_foldl ops geoInit (fun h => absurd rfl h)

/-- The concrete receiver used in witnesses and counterexamples. -/
def receiverA : SDRReceiver :=
  { id := "a", latitude := 0, longitude := 0, altitude := 0, timestamp := 0,
    active := true }

/-- C1 counterexample: after `add_receiver({"a",...})` followed by
`remove_receiver("a")` the registry is empty, yet the reference receiver is
still `"a"` — the reference does not become unset and names a receiver that
is no longer in the registry, contradicting the claimed invariant. -/
theorem c1_reference_counterexample :
    (runRegOps [RegOp.add receiverA, RegOp.remove "a"]).receivers = [] ∧
    (runRegOps [RegOp.add receiverA,
      RegOp.remove "a"]).reference_receiver = some "a" := by
  constructor <;> rfl

/-- C1 (amended): after any sequence of `add_receiver`, `remove_receiver`
and `set_reference_receiver` calls, whenever the registry is nonempty the
reference receiver is set and names a receiver present in the registry.
Removing the current reference reassigns the reference to the first
remaining receiver when at least one remains; when none remains the
registry empties but the reference keeps the removed id (it does not become
unset). -/
theorem c1_reference_invariant_amended :
    (∀ ops : List RegOp, (runRegOps ops).receivers ≠ [] →
      ∃ r, (runRegOps ops).reference_receiver = some r ∧
        dictContains (runRegOps ops).receivers r = true) ∧
    (∀ (st : SDRGeolocation) (rid : String),
      st.reference_receiver = some rid →
      dictContains st.receivers rid = true →
      (st.remove_receiver rid).receivers ≠ [] →
        (st.remove_receiver rid).reference_receiver =
          ((st.remove_receiver rid).receivers.map (fun p => p.1)).head?) ∧
    (∀ (st : SDRGeolocation) (rid : String),
      st.reference_receiver = some rid →
      (st.remove_receiver rid).receivers = [] →
        (st.remove_receiver rid).reference_receiver = some rid) := by
  refine ⟨fun ops => regInv_runRegOps ops, ?_, ?_⟩
  · intro st rid href hmem hne
    have hfil : (st.remove_receiver rid).receivers =
        st.receivers.filter (fun p => decide (¬ p.1 = rid)) := by
      unfold SDRGeolocation.remove_receiver
      rw [if_pos hmem]
      by_cases hcase : st.reference_receiver = some rid ∧
          st.receivers.filter (fun p => decide (¬ p.1 = rid)) ≠ []
      · rw [if_pos hcase]
      · rw [if_neg hcase]
    have hcase : st.reference_receiver = some rid ∧
        st.receivers.filter (fun p => decide (¬ p.1 = rid)) ≠ [] := by
      refine ⟨href, ?_⟩
      rw [hfil] at hne
      exact hne
    have hstate : st.remove_receiver rid =
        { receivers := st.receivers.filter (fun p => decide (¬ p.1 = rid)),
          reference_receiver :=
            ((st.receivers.filter
              (fun p => decide (¬ p.1 = rid))).map (fun p => p.1)).head? } := by
      unfold SDRGeolocation.remove_receiver
      rw [if_pos hmem, if_pos hcase]
    rw [hstate]
  · intro st rid href hnil
    by_cases hmem : dictContains st.receivers rid
    · have hncase : ¬ (st.reference_receiver = some rid ∧
          st.receivers.filter (fun p => decide (¬ p.1 = rid)) ≠ []) := by
        intro hcase
        apply hcase.2
        have hfil : (st.remove_receiver rid).receivers =
            st.receivers.filter (fun p => decide (¬ p.1 = rid)) := by
          unfold SDRGeolocation.remove_receiver
          rw [if_pos hmem, if_pos hcase]
        rw [← hfil]
        exact hnil
      have hstate : st.remove_receiver rid =
          { receivers := st.receivers.filter (fun p => decide (¬ p.1 = rid)),
            reference_receiver := st.reference_receiver } := by
        unfold SDRGeolocation.remove_receiver
        rw [if_pos hmem, if_neg hncase]
      rw [hstate]
      exact href
    · have hstate : st.remove_receiver rid = st := by
        unfold SDRGeolocation.remove_receiver
        rw [if_neg (by simpa using hmem)]
      rw [hstate]
      exact href

/-- A second concrete receiver for witnesses. -/
def receiverB : SDRReceiver :=
  { id := "b", latitude := 1, longitude := 1, altitude := 0, timestamp := 0,
    active := true }

/-- A concrete two-receiver registry state with reference `"a"`. -/
def registryAB : SDRGeolocation :=
  { receivers := [("a", receiverA), ("b", receiverB)],
    reference_receiver := some "a" }

/-- A concrete one-receiver registry state with reference `"a"`. -/
def registryA : SDRGeolocation :=
  { receivers := [("a", receiverA)], reference_receiver := some "a" }

/-- C1 witness: the amended invariant evaluated on concrete runs — a
nonempty registry reached by `add a; add b; remove a` has a present
reference, and the two removal behaviors at concrete states. -/
theorem c1_reference_invariant_witness :
    (∃ r, (runRegOps [RegOp.add receiverA, RegOp.add receiverB,
        RegOp.remove "a"]).reference_receiver = some r ∧
      dictContains (runRegOps [RegOp.add receiverA, RegOp.add receiverB,
        RegOp.remove "a"]).receivers r = true) ∧
    (registryAB.remove_receiver "a").reference_receiver =
      ((registryAB.remove_receiver "a").receivers.map (fun p => p.1)).head? ∧
    (registryA.remove_receiver "a").reference_receiver = some "a" :=
  ⟨c1_reference_invariant_amended.1
      [RegOp.add receiverA, RegOp.add receiverB, RegOp.remove "a"]
      (by decide),
   c1_reference_invariant_amended.2.1 registryAB "a" rfl (by decide)
      (by decide),
   c1_reference_invariant_amended.2.2 registryA "a" rfl (by decide)⟩

/-! ### Serialization round-trip development -/

theorem receiver_from_to_dict (r : SDRReceiver) :
    SDRReceiver.from_dict r.to_dict = r := rfl

/-- Well-formedness of the registry dict: every entry is keyed by its
receiver's id, and keys are distinct.  Every state reachable through the
engine's operations satisfies it. -/
def RegWF (st : SDRGeolocation) : Prop :=
  (∀ p ∈ st.receivers, p.2.id = p.1) ∧
    (st.receivers.map (fun p => p.1)).Nodup

theorem receivers_add (st : SDRGeolocation) (r : SDRReceiver) :
    (st.add_receiver r).receivers = dictInsert st.receivers r.id r := by
  unfold SDRGeolocation.add_receiver
  by_cases hlen : (dictInsert st.receivers r.id r).length = 1
  · rw [if_pos hlen]
  · rw [if_neg hlen]

theorem keys_dictInsert_present {α : Type} (l : List (String × α))
    (k : String) (v : α) (hmem : dictContains l k = true) :
    (dictInsert l k v).map (fun p => p.1) = l.map (fun p => p.1) := by
  unfold dictInsert
  rw [if_pos hmem, List.map_map]
  apply List.map_congr_left
  intro p _
  by_cases hpk : p.1 = k
  · simp [hpk]
  · simp [hpk]

theorem keys_dictInsert_absent {α : Type} (l : List (String × α))
    (k : String) (v : α) (hmem : dictContains l k = false) :
    (dictInsert l k v).map (fun p => p.1) = l.map (fun p => p.1) ++ [k] := by
  unfold dictInsert
  rw [if_neg (by simp [hmem])]
  simp

theorem mem_dictInsert_keyed {α : Type} (l : List (String × α))
    (k : String) (v : α) :
    ∀ p ∈ dictInsert l k v, p ∈ l ∨ p = (k, v) := by
  intro p hp
  unfold dictInsert at hp
  by_cases hmem : dictContains l k
  · rw [if_pos hmem] at hp
    obtain ⟨q, hq, hqp⟩ := List.mem_map.mp hp
    by_cases hqk : q.1 = k
    · right
      rw [← hqp]
      simp [hqk]
    · left
      rw [← hqp]
      simpa [hqk] using hq
  · rw [if_neg hmem] at hp
    rcases List.mem_append.mp hp with h | h
    · exact Or.inl h
    · exact Or.inr (by simpa using h)

theorem regWF_add (st : SDRGeolocation) (r : SDRReceiver) (h : RegWF st) :
    RegWF (st.add_receiver r) := by
  constructor
  · intro p hp
    rw [receivers_add] at hp
    rcases mem_dictInsert_keyed st.receivers r.id r p hp
      with hmem | heq
    · exact h.1 p hmem
    · rw [heq]
  · rw [receivers_add]
    by_cases hmem : dictContains st.receivers r.id
    · rw [keys_dictInsert_present st.receivers r.id r hmem]
      exact h.2
    · rw [keys_dictInsert_absent st.receivers r.id r (by simpa using hmem)]
      have hnot : r.id ∉ st.receivers.map (fun p => p.1) := by
        intro hin
        obtain ⟨q, hq, hqk⟩ := List.mem_map.mp hin
        have : dictContains st.receivers r.id = true := by
          unfold dictContains
          exact List.any_eq_true.mpr ⟨q, hq, by simp [hqk]⟩
        simp [this] at hmem
      simpa using List.Nodup.append h.2 (by simp)
        (by simpa [List.disjoint_singleton] using hnot)

theorem receivers_remove_sub (st : SDRGeolocation) (rid : String) :
    (st.remove_receiver rid).receivers.Sublist st.receivers := by
  unfold SDRGeolocation.remove_receiver
  by_cases hmem : dictContains st.receivers rid
  · rw [if_pos hmem]
    by_cases hcase : st.reference_receiver = some rid ∧
        st.receivers.filter (fun p => decide (¬ p.1 = rid)) ≠ []
    · rw [if_pos hcase]
      exact List.filter_sublist st.receivers
    · rw [if_neg hcase]
      exact List.filter_sublist st.receivers
  · rw [if_neg (by simpa using hmem)]

theorem regWF_remove (st : SDRGeolocation) (rid : String) (h : RegWF st) :
    RegWF (st.remove_receiver rid) := by
  have hsub := receivers_remove_sub st rid
  constructor
  · intro p hp
    exact h.1 p (hsub.mem hp)
  · exact List.Nodup.sublist (hsub.map (fun p => p.1)) h.2

theorem receivers_setRef (st : SDRGeolocation) (rid : String) :
    ((st.set_reference_receiver rid).1).receivers = st.receivers := by
  unfold SDRGeolocation.set_reference_receiver
  by_cases hmem : dictContains st.receivers rid
  · rw [if_pos hmem]
  · rw [if_neg hmem]

theorem regWF_applyRegOp (st : SDRGeolocation) (op : RegOp) (h : RegWF st) :
    RegWF (applyRegOp st op) := by
  cases op with
  | add r => exact regWF_add st r h
  | remove rid => exact regWF_remove st rid h
  | setRef rid =>
    constructor
    · intro p hp
      rw [show (applyRegOp st (RegOp.setRef rid)).receivers =
          ((st.set_reference_receiver rid).1).receivers from rfl,
        receivers_setRef] at hp
      exact h.1 p hp
    · rw [show (applyRegOp st (RegOp.setRef rid)).receivers =
          ((st.set_reference_receiver rid).1).receivers from rfl,
        receivers_setRef]
      exact h.2

theorem regWF_runRegOps (ops : List RegOp) : RegWF (runRegOps ops) := by
  have hgen : ∀ st : SDRGeolocation, RegWF st →
      RegWF (ops.foldl applyRegOp st) := by
    induction ops with
    | nil => intro st h; exact h
    | cons op rest ih =>
      intro st h
      exact ih (applyRegOp st op) (regWF_applyRegOp st op h)
  refine hgen geoInit ⟨?_, by simp [geoInit]⟩
  intro p hp
  cases hp

theorem contains_false_of_not_mem_keys {α : Type} (l : List (String × α))
    (k : String) (h : k ∉ l.map (fun p => p.1)) :
    dictContains l k = false := by
  by_contra hcon
  have hc : dictContains l k = true := by
    cases hval : dictContains l k with
    | true => rfl
    | false => exact absurd hval hcon
  unfold dictContains at hc
  obtain ⟨p, hp, hpk⟩ := List.any_eq_true.mp hc
  exact h (List.mem_map.mpr ⟨p, hp, by simpa using hpk⟩)

theorem fold_add_receivers (l : List (String × SDRReceiver)) :
    ∀ g : SDRGeolocation,
      (∀ p ∈ l, p.2.id = p.1) →
      ((g.receivers.map (fun p => p.1)) ++ l.map (fun p => p.1)).Nodup →
      (l.foldl (fun g p => g.add_receiver p.2) g).receivers =
        g.receivers ++ l := by
  induction l with
  | nil => intro g _ _; simp
  | cons p t ih =>
    intro g hid hnodup
    have hid_p : p.2.id = p.1 := hid p (List.mem_cons_self p t)
    have hnot : p.1 ∉ g.receivers.map (fun q => q.1) := by
      rw [List.nodup_append] at hnodup
      intro hin
      exact hnodup.2.2 hin (by simp)
    have hcont : dictContains g.receivers p.1 = false :=
      contains_false_of_not_mem_keys g.receivers p.1 hnot
    have hstep : (g.add_receiver p.2).receivers = g.receivers ++ [p] := by
      rw [receivers_add]
      unfold dictInsert
      rw [hid_p, if_neg (by simp [hcont])]
    have hkeys : (g.add_receiver p.2).receivers.map (fun q => q.1) =
        g.receivers.map (fun q => q.1) ++ [p.1] := by
      rw [hstep]
      simp
    have hnodup2 : (((g.add_receiver p.2).receivers.map (fun q => q.1)) ++
        t.map (fun q => q.1)).Nodup := by
      rw [hkeys, List.append_assoc]
      simpa using hnodup
    calc ((p :: t).foldl (fun g p => g.add_receiver p.2) g).receivers
        = (t.foldl (fun g p => g.add_receiver p.2)
            (g.add_receiver p.2)).receivers := by rw [List.foldl_cons]
      _ = (g.add_receiver p.2).receivers ++ t :=
          ih (g.add_receiver p.2) (fun q hq => hid q (List.mem_cons_of_mem p hq))
            hnodup2
      _ = (g.receivers ++ [p]) ++ t := by rw [hstep]
      _ = g.receivers ++ (p :: t) := by simp

/-- C9: `from_dict(to_dict(state))` reproduces the registry exactly — same
receivers with every field intact and the same reference receiver id — for
every state reachable through the engine's registry operations. -/
theorem c9_registry_serialization_roundtrip (ops : List RegOp) :
    SDRGeolocation.from_dict (SDRGeolocation.to_dict (runRegOps ops)) =
      runRegOps ops := by
  have hwf := regWF_runRegOps ops
  have hrec : ((runRegOps ops).receivers.foldl
      (fun g p => g.add_receiver p.2) geoInit).receivers =
      (runRegOps ops).receivers := by
    have h := fold_add_receivers (runRegOps ops).receivers geoInit hwf.1
      (by simpa [geoInit] using hwf.2)
    simpa [geoInit] using h
  unfold SDRGeolocation.from_dict SDRGeolocation.to_dict
  simp only [List.foldl_map, receiver_from_to_dict]
  rw [hrec]

/-! ### `calculate_tdoa` development -/

theorem dictGet?_measurements_fold (ms : List SignalMeasurement) :
    ∀ (acc : List (String × SignalMeasurement)) (rid : String),
      dictGet? (ms.foldl (fun d m => dictInsert d m.receiver_id m) acc) rid =
        match ms.reverse.find? (fun m => decide (m.receiver_id = rid)) with
        | some m => some m
        | none => dictGet? acc rid := by
  induction ms with
  | nil => intro acc rid; rfl
  | cons m t ih =>
    intro acc rid
    rw [List.foldl_cons, ih, List.reverse_cons, List.find?_append]
    cases hfind : t.reverse.find? (fun m => decide (m.receiver_id = rid)) with
    | some m2 => rfl
    | none =>
      rw [dictGet?_dictInsert]
      by_cases hm : m.receiver_id = rid
      · simp [List.find?, hm]
      · simp [List.find?, hm]

/-- C4: `calculate_tdoa` leaves the list untouched when no measurement comes
from the reference receiver; otherwise it sets `tdoa = timestamp - t0` on
every measurement from a different receiver, where `t0` is the timestamp of
the reference measurement retained by the receiver-keyed dict (the last one
in list order), and leaves the `tdoa` of reference-receiver measurements
unchanged. -/
theorem c4_calculate_tdoa (ms : List SignalMeasurement) (rid : String) :
    ((∀ m ∈ ms, m.receiver_id ≠ rid) → calculate_tdoa ms rid = ms) ∧
    (∀ refM, lastMeasurementOf ms rid = some refM →
      calculate_tdoa ms rid = ms.map (fun m =>
        if m.receiver_id = rid then m
        else { m with tdoa := some (m.timestamp - refM.timestamp) })) := by
  constructor
  · intro hnone
    unfold calculate_tdoa
    simp only [dictGet?_measurements_fold]
    have hfind : ms.reverse.find? (fun m => decide (m.receiver_id = rid)) =
        none := by
      apply List.find?_eq_none.mpr
      intro m hm
      simpa using hnone m (List.mem_reverse.mp hm)
    rw [hfind]
    rfl
  · intro refM href
    unfold calculate_tdoa
    simp only [dictGet?_measurements_fold]
    unfold lastMeasurementOf at href
    rw [href]
    apply List.map_congr_left
    intro m _
    by_cases hm : m.receiver_id = rid
    · simp [hm]
    · simp [hm]

/-- First concrete measurement (receiver `r1`). -/
def measurement1 : SignalMeasurement :=
  { receiver_id := "r1", frequency := 100000000, power := 1 / 2,
    timestamp := 10, tdoa := none, snr := none, modulation := none }

/-- Second concrete measurement (receiver `r2`). -/
def measurement2 : SignalMeasurement :=
  { receiver_id := "r2", frequency := 100000000, power := 1 / 4,
    timestamp := 12, tdoa := none, snr := none, modulation := none }

/-- C4 witness: on `[measurement1, measurement2]` with reference `r1`, the
`r2` measurement gets `tdoa = 12 - 10 = 2` and the `r1` measurement is
untouched; with reference `r1` absent, the list is returned unchanged. -/
theorem c4_calculate_tdoa_witness :
    calculate_tdoa [measurement1, measurement2] "r1" =
      [measurement1, { measurement2 with tdoa := some 2 }] ∧
    calculate_tdoa [measurement2] "r1" = [measurement2] := by
  constructor
  · rw [(c4_calculate_tdoa [measurement1, measurement2] "r1").2 measurement1
      rfl]
    simp [measurement1, measurement2]
    norm_num
  · exact (c4_calculate_tdoa [measurement2] "r1").1 (by decide)

/-- A point of the probability ring at bearing `i * (pi/18)` (i.e. `i` steps
of 10°) and distance `d` from the receiver, with probability `1/36`. -/
noncomputable def ringPoint (recv : SDRReceiver) (d : ℝ) (i : ℕ) :
    CirclePoint :=
  { latitude :=
      (get_point_at_distance recv.latitude recv.longitude d
        ((i : ℝ) * (Real.pi / 18))).1
    longitude :=
      (get_point_at_distance recv.latitude recv.longitude d
        ((i : ℝ) * (Real.pi / 18))).2
    probability := 1 / 36 }

/-- C3: for a measurement whose receiver is registered,
`estimate_single_receiver` returns exactly 36 points; the point at index `i`
lies at distance `sqrt(assumed_tx_power / max(power, 0.001)) * 1000` from
the receiver along bearing `i * (pi/18)` — bearings 10° apart collectively
spanning the full circle — and carries probability `1/36`. -/
theorem c3_estimate_single_receiver (st : SDRGeolocation)
    (m : SignalMeasurement) (tx : ℚ) (recv : SDRReceiver)
    (h : dictGet? st.receivers m.receiver_id = some recv) :
    (st.estimate_single_receiver m tx).length = 36 ∧
    ∀ i : ℕ, i < 36 →
      (st.estimate_single_receiver m tx)[i]? =
        some (ringPoint recv
          (Real.sqrt ((tx : ℝ) / ((max m.power (1 / 1000) : ℚ) : ℝ)) * 1000)
          i) := by
  unfold SDRGeolocation.estimate_single_receiver
  rw [h]
  constructor
  · simp only [List.length_map, List.length_range]
  · intro i hi
    have hang : (2 * Real.pi * (i : ℝ)) / ((36 : ℕ) : ℝ) =
        (i : ℝ) * (Real.pi / 18) := by
      push_cast
      ring
    have hrange : (List.range 36)[i]? = some i := by
      simp [List.getElem?_range, hi]
    rw [List.getElem?_map, hrange]
    simp only [Option.map]
    unfold ringPoint
    rw [hang]
    norm_num

/-- The concrete signal measurement used in the C3 witness (receiver `a`,
power 1). -/
def measurementA : SignalMeasurement :=
  { receiver_id := "a", frequency := 100000000, power := 1, timestamp := 0,
    tdoa := none, snr := none, modulation := none }

/-- C3 witness: the probability circle for `measurementA` on the concrete
one-receiver registry has 36 points, and its first point sits at the
computed ring distance from the receiver at bearing 0 with probability
1/36. -/
theorem c3_estimate_single_receiver_witness :
    (registryA.estimate_single_receiver measurementA 1).length = 36 ∧
    (registryA.estimate_single_receiver measurementA 1)[0]? =
      some (ringPoint receiverA
        (Real.sqrt (((1 : ℚ) : ℝ) /
          ((max measurementA.power (1 / 1000) : ℚ) : ℝ)) * 1000)
        0) :=
  ⟨(c3_estimate_single_receiver registryA measurementA 1 receiverA rfl).1,
   (c3_estimate_single_receiver registryA measurementA 1 receiverA rfl).2 0
     (by norm_num)⟩

/-! ### RSSI zero-total-power guard -/

theorem rssiInitialGuess_ok (ms : List SignalMeasurement)
    (dict : List (String × SDRReceiver)) (total : ℚ) (h : total ≠ 0) :
    ∀ init : ℚ × ℚ × ℚ, ∃ g,
      ms.foldlM (fun avg m =>
        match dictGet? dict m.receiver_id with
        | none => Except.ok avg
        | some receiver =>
          if total = 0 then Except.error "ZeroDivisionError"
          else
            let weight := m.power / total
            Except.ok (avg.1 + receiver.latitude * weight,
              avg.2.1 + receiver.longitude * weight,
              avg.2.2 + receiver.altitude * weight)) init =
        Except.ok g := by
  induction ms with
  | nil => intro init; exact ⟨init, rfl⟩
  | cons m t ih =>
    intro init
    rw [List.foldlM_cons]
    cases hd : dictGet? dict m.receiver_id with
    | none =>
      obtain ⟨g, hg⟩ := ih init
      exact ⟨g, by simpa [hd] using hg⟩
    | some receiver =>
      obtain ⟨g, hg⟩ := ih (init.1 + receiver.latitude * (m.power / total),
        init.2.1 + receiver.longitude * (m.power / total),
        init.2.2 + receiver.altitude * (m.power / total))
      refine ⟨g, ?_⟩
      simpa [hd, if_neg h] using hg

/-- C10: with at least 3 measurements but zero total power,
`geolocate_rssi` returns `None` before any weighted-centroid division; and
whenever the total power is nonzero — the only state in which the centroid
loop runs — every division in `rssiInitialGuess` is by that nonzero total,
so the loop cannot raise `ZeroDivisionError`. -/
theorem c10_geolocate_rssi_zero_power (opt : Optimizer)
    (ms : List SignalMeasurement) (rs : List SDRReceiver) :
    (3 ≤ ms.length → (ms.map (fun m => m.power)).sum = 0 →
      geolocate_rssi opt ms rs = Except.ok none) ∧
    (∀ (dict : List (String × SDRReceiver)) (total : ℚ), total ≠ 0 →
      ∃ g, rssiInitialGuess ms dict total = Except.ok g) := by
  constructor
  · intro h3 h0
    simp only [geolocate_rssi]
    rw [if_neg (by omega), if_pos h0]
  · intro dict total h
    exact rssiInitialGuess_ok ms dict total h (0, 0, 0)

/-- A trivially converging optimizer used in witnesses. -/
def optReturnGuess : Optimizer := fun _obj guess =>
  Except.ok { success := true, x := guess }

/-- A zero-power measurement used in the C10 witness. -/
def zeroPowerMeasurement : SignalMeasurement :=
  { receiver_id := "z", frequency := 100000000, power := 0, timestamp := 0 }

/-- C10 witness: three zero-power measurements make `geolocate_rssi` return
`None` even under an optimizer that always converges, and a nonzero total
power keeps the centroid loop exception-free. -/
theorem c10_geolocate_rssi_zero_power_witness :
    geolocate_rssi optReturnGuess [zeroPowerMeasurement, zeroPowerMeasurement,
      zeroPowerMeasurement] [] = Except.ok none ∧
    ∃ g, rssiInitialGuess [zeroPowerMeasurement, zeroPowerMeasurement,
      zeroPowerMeasurement] [] 1 = Except.ok g :=
  ⟨(c10_geolocate_rssi_zero_power optReturnGuess [zeroPowerMeasurement,
      zeroPowerMeasurement, zeroPowerMeasurement] []).1 (by decide)
      (by simp [zeroPowerMeasurement]),
   (c10_geolocate_rssi_zero_power optReturnGuess [zeroPowerMeasurement,
      zeroPowerMeasurement, zeroPowerMeasurement] []).2 [] 1 (by decide)⟩

/-! ### TDoA failure-mode development -/

theorem length_fold_dictInsert {α β : Type} (l : List β) (f : β → String)
    (g : β → α) :
    ∀ acc : List (String × α),
      (l.foldl (fun d x => dictInsert d (f x) (g x)) acc).length ≤
        acc.length + l.length := by
  induction l with
  | nil => intro acc; simp
  | cons x t ih =>
    intro acc
    rw [List.foldl_cons]
    calc (t.foldl (fun d x => dictInsert d (f x) (g x))
        (dictInsert acc (f x) (g x))).length
        ≤ (dictInsert acc (f x) (g x)).length + t.length := ih _
      _ ≤ (acc.length + 1) + t.length := by
          rcases length_dictInsert acc (f x) (g x) with h | h <;> omega
      _ = acc.length + (t.length + 1) := by omega
      _ = acc.length + (x :: t).length := by simp

theorem tdoaMeasurementsByReceiver_length (ms : List SignalMeasurement) :
    (tdoaMeasurementsByReceiver ms).length ≤
      (ms.filter (fun m => m.tdoa.isSome)).length := by
  have h := length_fold_dictInsert (ms.filter (fun m => m.tdoa.isSome))
    (fun m => m.receiver_id) (fun m => m) []
  simpa [tdoaMeasurementsByReceiver] using h

/-- C5: the composed TDoA geolocation returns `None` — and raises nothing —
whenever fewer than 3 measurements carry a `tdoa`, or fewer than 3 active
receivers are registered, or the optimizer reports non-convergence; and it
returns a position only when all three preconditions hold, the position
being the optimizer's converged point. -/
theorem c5_geolocate_tdoa_failure_modes (opt : Optimizer)
    (st : SDRGeolocation) (ms : List SignalMeasurement) :
    (((ms.filter (fun m => m.tdoa.isSome)).length < 3 ∨
        st.get_active_receivers.length < 3) →
      geolocateTdoaEngine opt st ms = Except.ok none) ∧
    (∀ r : OptimizeResult,
      opt (tdoaErrorFunction (tdoaMeasurementsByReceiver ms) st.receivers
          st.reference_receiver ((SPEED_OF_LIGHT : ℚ) : ℝ))
        (tdoaInitialGuess st.get_active_receivers) = Except.ok r →
      r.success = false →
      geolocateTdoaEngine opt st ms = Except.ok none) ∧
    (∀ p, geolocateTdoaEngine opt st ms = Except.ok (some p) →
      3 ≤ (ms.filter (fun m => m.tdoa.isSome)).length ∧
      3 ≤ st.get_active_receivers.length ∧
      ∃ r : OptimizeResult,
        opt (tdoaErrorFunction (tdoaMeasurementsByReceiver ms) st.receivers
            st.reference_receiver ((SPEED_OF_LIGHT : ℚ) : ℝ))
          (tdoaInitialGuess st.get_active_receivers) = Except.ok r ∧
        r.success = true ∧ r.x = p) := by
  have hactive : (st.receivers.map (fun p => p.2)).filter (fun r => r.active) =
      st.get_active_receivers := rfl
  refine ⟨?_, ?_, ?_⟩
  · intro hcase
    by_cases hact : st.get_active_receivers.length < 3
    · simp only [geolocateTdoaEngine]
      rw [if_pos hact]
    · have hms : (ms.filter (fun m => m.tdoa.isSome)).length < 3 := by
        rcases hcase with h | h
        · exact h
        · exact absurd h hact
      have hby : (tdoaMeasurementsByReceiver ms).length < 3 :=
        lt_of_le_of_lt (tdoaMeasurementsByReceiver_length ms) hms
      simp only [geolocateTdoaEngine]
      rw [if_neg hact]
      simp only [geolocate_tdoa]
      rw [if_pos hby]
  · intro r hopt hfail
    by_cases hact : st.get_active_receivers.length < 3
    · simp only [geolocateTdoaEngine]
      rw [if_pos hact]
    · simp only [geolocateTdoaEngine]
      rw [if_neg hact]
      simp only [geolocate_tdoa]
      by_cases hby : (tdoaMeasurementsByReceiver ms).length < 3
      · rw [if_pos hby]
      · rw [if_neg hby, hactive,
          if_neg (show ¬ st.get_active_receivers.length = 0 by omega), hopt]
        simp [hfail]
  · intro p hres
    by_cases hact : st.get_active_receivers.length < 3
    · exfalso
      simp only [geolocateTdoaEngine] at hres
      rw [if_pos hact] at hres
      exact Option.noConfusion (Except.ok.inj hres)
    · simp only [geolocateTdoaEngine] at hres
      rw [if_neg hact] at hres
      simp only [geolocate_tdoa] at hres
      by_cases hby : (tdoaMeasurementsByReceiver ms).length < 3
      · exfalso
        rw [if_pos hby] at hres
        exact Option.noConfusion (Except.ok.inj hres)
      · rw [if_neg hby, hactive,
          if_neg (show ¬ st.get_active_receivers.length = 0 by omega)] at hres
        refine ⟨?_, by omega, ?_⟩
        · have hle := tdoaMeasurementsByReceiver_length ms
          omega
        · cases hopt : opt (tdoaErrorFunction (tdoaMeasurementsByReceiver ms)
              st.receivers st.reference_receiver ((SPEED_OF_LIGHT : ℚ) : ℝ))
              (tdoaInitialGuess st.get_active_receivers) with
          | error e =>
            rw [hopt] at hres
            exact absurd hres (by simp)
          | ok r =>
            rw [hopt] at hres
            have hres2 : (if r.success = true then Except.ok (some r.x)
                else Except.ok none) = Except.ok (some p) := hres
            by_cases hsucc : r.success = true
            · rw [if_pos hsucc] at hres2
              exact ⟨r, rfl, hsucc, Option.some.inj (Except.ok.inj hres2)⟩
            · exfalso
              rw [if_neg hsucc] at hres2
              exact Option.noConfusion (Except.ok.inj hres2)

/-- An optimizer that always reports non-convergence, used in witnesses. -/
def optFail : Optimizer := fun _obj _guess =>
  Except.ok { success := false, x := (0, 0, 0) }

/-- C5 witness: on the empty engine and measurement list the composed TDoA
solver returns `None` (insufficient data), and with a non-converging
optimizer it likewise returns `None`. -/
theorem c5_geolocate_tdoa_failure_modes_witness :
    geolocateTdoaEngine optReturnGuess geoInit [] = Except.ok none ∧
    geolocateTdoaEngine optFail geoInit [] = Except.ok none :=
  ⟨(c5_geolocate_tdoa_failure_modes optReturnGuess geoInit []).1
      (Or.inl (by decide)),
   (c5_geolocate_tdoa_failure_modes optFail geoInit []).2.1
      { success := false, x := (0, 0, 0) } rfl rfl⟩

/-- C7: in collision resolution the agent yields exactly when its role
priority is at most the nearest conflicting peer's priority, the priorities
realize the strict order LEAD > TRIANGULATION > BACKUP > SCOUT > UNASSIGNED,
and for two agents of equal priority (e.g. both BACKUP) each one's yield
condition holds. -/
theorem c7_collision_yield_rule :
    (∀ our_role closest_role : String,
      we_should_adjust our_role closest_role = true ↔
        role_priority our_role ≤ role_priority closest_role) ∧
    (role_priority "LEAD" > role_priority "TRIANGULATION" ∧
      role_priority "TRIANGULATION" > role_priority "BACKUP" ∧
      role_priority "BACKUP" > role_priority "SCOUT" ∧
      role_priority "SCOUT" > role_priority "UNASSIGNED") ∧
    (∀ r : String, we_should_adjust r r = true) ∧
    we_should_adjust "BACKUP" "BACKUP" = true := by
  refine ⟨?_, by decide, ?_, by decide⟩
  · intro a b
    simp [we_should_adjust]
  · intro r
    simp [we_should_adjust]

/-- C6: leader election ranks candidates descending by `(rssi, battery)`
(battery breaking RSSI ties), maps rank `i` to `PURSUIT_ROLES[min(i, 3)]` —
so rank 0 is LEAD and every rank at least 3 gets SCOUT — and on the snapshot
A(rssi -40, battery 90), B(rssi -60, battery 100) elects A as LEAD with B as
TRIANGULATION. -/
theorem c6_leader_election :
    (∀ cands : List (String × DroneInfo),
      List.Sorted electionKeyLE (sortCandidates cands)) ∧
    (roleOfRank 0 = "LEAD" ∧ roleOfRank 1 = "TRIANGULATION" ∧
      roleOfRank 2 = "BACKUP" ∧ roleOfRank 3 = "SCOUT") ∧
    (∀ k : ℕ, roleOfRank (3 + k) = "SCOUT") ∧
    (electLeader [("A", { rssi := -40, battery := 90 }),
        ("B", { rssi := -60, battery := 100 })] = some "A" ∧
      assignRoles [("A", { rssi := -40, battery := 90 }),
        ("B", { rssi := -60, battery := 100 })] =
        [("A", "LEAD"), ("B", "TRIANGULATION")]) := by
  refine ⟨?_, by decide, ?_, ?_⟩
  · intro cands
    exact List.sorted_insertionSort electionKeyLE cands
  · intro k
    unfold roleOfRank
    have hmin : min (3 + k) (PURSUIT_ROLES.length - 1) = 3 := by
      simp [PURSUIT_ROLES]
    rw [hmin]
    rfl
  · constructor
    · decide
    · decide

/-- C8: with at most as many active drones as frequency bands, distinct
drones receive distinct, interval-disjoint bands; and the assignment depends
only on the set of drone ids — any two duplicate-free id lists with the same
members produce the identical drone-to-band mapping. -/
theorem c8_assign_frequency_bands :
    (∀ (l : List String) (i j : ℕ) (d1 d2 : String) (b1 b2 : ℚ × ℚ),
      l.length ≤ FREQUENCY_BANDS.length →
      (assign_frequency_bands l)[i]? = some (d1, b1) →
      (assign_frequency_bands l)[j]? = some (d2, b2) →
      d1 ≠ d2 → b1 ≠ b2 ∧ bandsDisjoint b1 b2) ∧
    (∀ l1 l2 : List String, l1.Nodup → l2.Nodup →
      l1.toFinset = l2.toFinset →
      assign_frequency_bands l1 = assign_frequency_bands l2) := by
  constructor
  · intro l i j d1 d2 b1 b2 hlen h1 h2 hne
    have hlen2 : (List.insertionSort (fun a b : String => a ≤ b) l).length =
        l.length := (List.perm_insertionSort _ l).length_eq
    simp only [assign_frequency_bands, List.getElem?_map] at h1 h2
    cases he1 : (List.insertionSort (fun a b : String => a ≤ b) l).enum[i]? with
    | none => rw [he1] at h1; exact absurd h1 (by simp)
    | some pi =>
      cases he2 : (List.insertionSort (fun a b : String => a ≤ b) l).enum[j]? with
      | none => rw [he2] at h2; exact absurd h2 (by simp)
      | some pj =>
        rw [he1] at h1
        rw [he2] at h2
        have hpi : pi.1 = i ∧ i < l.length := by
          have hmem := List.getElem?_mem he1
          have hlt : i < (List.insertionSort (fun a b : String => a ≤ b)
              l).enum.length := by
            by_contra hge
            rw [List.getElem?_eq_none (by omega)] at he1
            exact Option.noConfusion he1
          have := List.enum_length
            (l := List.insertionSort (fun a b : String => a ≤ b) l)
          constructor
          · have hget := List.getElem?_eq_some.mp he1
            obtain ⟨hproof, hval⟩ := hget
            rw [← hval]
            simp [List.getElem_enum]
          · omega
        have hpj : pj.1 = j ∧ j < l.length := by
          have hlt : j < (List.insertionSort (fun a b : String => a ≤ b)
              l).enum.length := by
            by_contra hge
            rw [List.getElem?_eq_none (by omega)] at he2
            exact Option.noConfusion he2
          have := List.enum_length
            (l := List.insertionSort (fun a b : String => a ≤ b) l)
          constructor
          · have hget := List.getElem?_eq_some.mp he2
            obtain ⟨hproof, hval⟩ := hget
            rw [← hval]
            simp [List.getElem_enum]
          · omega
        have hij : i ≠ j := by
          intro hijeq
          rw [hijeq] at he1
          rw [he1] at he2
          have hpij : pi = pj := Option.some.inj he2
          have hd : d1 = d2 := by
            have h1v : (pi.2, FREQUENCY_BANDS.getD
                (pi.1 % FREQUENCY_BANDS.length) (0, 0)) = (d1, b1) :=
              Option.some.inj h1
            have h2v : (pj.2, FREQUENCY_BANDS.getD
                (pj.1 % FREQUENCY_BANDS.length) (0, 0)) = (d2, b2) :=
              Option.some.inj h2
            rw [← hpij] at h2v
            have e1 := congrArg Prod.fst h1v
            have e2 := congrArg Prod.fst h2v
            simp only [] at e1 e2
            rw [← e1, ← e2]
          exact hne hd
        have hb1 : b1 = FREQUENCY_BANDS.getD (i % FREQUENCY_BANDS.length)
            (0, 0) := by
          have h1v : (pi.2, FREQUENCY_BANDS.getD
              (pi.1 % FREQUENCY_BANDS.length) (0, 0)) = (d1, b1) :=
            Option.some.inj h1
          have e := congrArg Prod.snd h1v
          simp only [] at e
          rw [← e, hpi.1]
        have hb2 : b2 = FREQUENCY_BANDS.getD (j % FREQUENCY_BANDS.length)
            (0, 0) := by
          have h2v : (pj.2, FREQUENCY_BANDS.getD
              (pj.1 % FREQUENCY_BANDS.length) (0, 0)) = (d2, b2) :=
            Option.some.inj h2
          have e := congrArg Prod.snd h2v
          simp only [] at e
          rw [← e, hpj.1]
        have hfour : ∀ a, a < 4 → ∀ b, b < 4 → a ≠ b →
            FREQUENCY_BANDS.getD a (0, 0) ≠ FREQUENCY_BANDS.getD b (0, 0) ∧
            bandsDisjoint (FREQUENCY_BANDS.getD a (0, 0))
              (FREQUENCY_BANDS.getD b (0, 0)) := by decide
        have hlen4 : FREQUENCY_BANDS.length = 4 := by decide
        have hi4 : i < 4 := by omega
        have hj4 : j < 4 := by omega
        rw [hb1, hb2, hlen4, Nat.mod_eq_of_lt hi4, Nat.mod_eq_of_lt hj4]
        exact hfour i hi4 j hj4 hij
  · intro l1 l2 hn1 hn2 hset
    have hperm : List.Perm l1 l2 :=
      List.perm_of_nodup_nodup_toFinset_eq hn1 hn2 hset
    have hsorted : List.insertionSort (fun a b : String => a ≤ b) l1 =
        List.insertionSort (fun a b : String => a ≤ b) l2 := by
      apply List.eq_of_perm_of_sorted
        ((List.perm_insertionSort _ l1).trans
          (hperm.trans (List.perm_insertionSort _ l2).symm))
        (List.sorted_insertionSort _ l1)
        (List.sorted_insertionSort _ l2)
    unfold assign_frequency_bands
    rw [hsorted]

/-- C8 witness: on the two-drone swarm `{d1, d2}` the two assigned bands
(FM broadcast and 2m amateur) are distinct and disjoint, and listing the
drones in either order produces the identical mapping. -/
theorem c8_assign_frequency_bands_witness :
    (((88000000 : ℚ), (108000000 : ℚ)) ≠ ((144000000 : ℚ), (148000000 : ℚ)) ∧
      bandsDisjoint (88000000, 108000000) (144000000, 148000000)) ∧
    assign_frequency_bands ["d2", "d1"] =
      assign_frequency_bands ["d1", "d2"] := by
  have hsort : List.insertionSort (fun a b : String => a ≤ b) ["d2", "d1"] =
      ["d1", "d2"] := by
    simp only [List.insertionSort, List.orderedInsert]
    rw [if_neg (by rw [String.le_iff_toList_le]; decide)]
  have h1 : (assign_frequency_bands ["d2", "d1"])[0]? =
      some ("d1", ((88000000 : ℚ), (108000000 : ℚ))) := by
    unfold assign_frequency_bands
    rw [hsort]
    rfl
  have h2 : (assign_frequency_bands ["d2", "d1"])[1]? =
      some ("d2", ((144000000 : ℚ), (148000000 : ℚ))) := by
    unfold assign_frequency_bands
    rw [hsort]
    rfl
  exact ⟨c8_assign_frequency_bands.1 ["d2", "d1"] 0 1 "d1" "d2"
      (88000000, 108000000) (144000000, 148000000) (by decide) h1 h2
      (by decide),
    c8_assign_frequency_bands.2 ["d2", "d1"] ["d1", "d2"] (by decide)
      (by decide) (by decide)⟩

/-- C2 counterexample: two drones 2 m apart vertically (altitude difference
small), ~11 m apart horizontally — the claim says the yielding agent moves
laterally, but the code adjusts altitude (to 60 m), not laterally. -/
theorem c2_avoid_maneuver_counterexample :
    avoidManeuver 0 0 50
      { distance := 10, position := (1 / 10000, 0), altitude := 48 } =
      AvoidTarget.vertical 0 0 60 ∧
    (avoidManeuver 0 0 50
      { distance := 10, position := (1 / 10000, 0), altitude := 48 }).isLateral
      = false := by
  have h : avoidManeuver 0 0 50
      { distance := 10, position := (1 / 10000, 0), altitude := 48 } =
      AvoidTarget.vertical 0 0 60 := by
    unfold avoidManeuver
    rw [if_neg (by norm_num [SAFE_ALTITUDE_STEP])]
    norm_num [SAFE_ALTITUDE_STEP]
  exact ⟨h, by rw [h]; rfl⟩

/-- C2 (amended): the yielding agent moves laterally — along the bearing
from the peer's position to its own, continued outward by the
minimum-separation distance — when the altitude difference to the peer is
*large* (strictly more than `0.8 * SAFE_ALTITUDE_STEP` = 8 m); otherwise
(small altitude difference) it takes an altitude step of ±10 m in the
direction that increases separation, clamped to [10, 120] m. -/
theorem c2_avoid_maneuver_amended (lat lon alt : ℚ)
    (closest : CollisionRisk) :
    (SAFE_ALTITUDE_STEP * (8 / 10) < |alt - closest.altitude| →
      avoidManeuver lat lon alt closest =
        AvoidTarget.lateral
          (calculate_position_at_bearing lat lon
            (calculate_bearing closest.position (lat, lon))
            MIN_SEPARATION_DISTANCE).1
          (calculate_position_at_bearing lat lon
            (calculate_bearing closest.position (lat, lon))
            MIN_SEPARATION_DISTANCE).2
          alt) ∧
    (|alt - closest.altitude| ≤ SAFE_ALTITUDE_STEP * (8 / 10) →
      avoidManeuver lat lon alt closest =
        AvoidTarget.vertical lat lon
          (max 10 (min 120
            (if closest.altitude ≤ alt then alt + SAFE_ALTITUDE_STEP
             else alt - SAFE_ALTITUDE_STEP)))) := by
  constructor
  · intro h
    unfold avoidManeuver
    rw [if_pos h]
  · intro h
    unfold avoidManeuver
    rw [if_neg (not_lt.mpr h)]

/-- C2 witness for the amended maneuver rule: with a 20 m altitude gap the
agent moves laterally at its own altitude; with a 2 m gap it climbs to
60 m. -/
theorem c2_avoid_maneuver_amended_witness :
    avoidManeuver 0 0 50
      { distance := 10, position := (1 / 10000, 0), altitude := 30 } =
      AvoidTarget.lateral
        (calculate_position_at_bearing 0 0
          (calculate_bearing ((1 / 10000 : ℚ), (0 : ℚ)) (0, 0))
          MIN_SEPARATION_DISTANCE).1
        (calculate_position_at_bearing 0 0
          (calculate_bearing ((1 / 10000 : ℚ), (0 : ℚ)) (0, 0))
          MIN_SEPARATION_DISTANCE).2
        50 ∧
    avoidManeuver 0 0 50
      { distance := 10, position := (1 / 10000, 0), altitude := 48 } =
      AvoidTarget.vertical 0 0 60 := by
  constructor
  · exact (c2_avoid_maneuver_amended 0 0 50
      { distance := 10, position := (1 / 10000, 0), altitude := 30 }).1
      (by norm_num [SAFE_ALTITUDE_STEP])
  · rw [(c2_avoid_maneuver_amended 0 0 50
      { distance := 10, position := (1 / 10000, 0), altitude := 48 }).2
      (by norm_num [SAFE_ALTITUDE_STEP])]
    norm_num [SAFE_ALTITUDE_STEP]
